import Mathlib

/-!
Verification of the cf-abacus usage renewal engine and plan/mapping
resolution against their natural-language specification.

The definitions below are shallow embeddings of the JavaScript sources:

* lib/cf/renewer/src/index.js           (usage renewal engine)
* lib/plugins/provisioning/src/index.js (plan resolvers)
* lib/config/mappings/src/index.js      (plan-mapping resolver and seeding)

Mutable JavaScript objects reachable from a usage document are modelled
with an explicit heap (`JSHeap`); module-level statistics and error
state are threaded explicitly; asynchronous callback control flow is
sequentialized, which is faithful because the process is single-threaded
and the claims under study do not depend on interleaving order.
-/

namespace Abacus

/-- One entry of a usage document's `measured_usage` array
(renewer index.js). `quantity` is a JSON number, modelled as `Int`. -/
structure MeasuredUsage where
  measure : String
  quantity : Int
  deriving Repr, DecidableEq, Inhabited

/-- Field values of a usage-document object.  `measured_usage` holds a
*reference* (an index into `JSHeap.arrays`) because in JavaScript the
array is a separate heap object: `extend({}, usage)` copies the
reference, not the array.  `id` and `rest` stand for the remaining
schema fields, which the renewal transformation never touches. -/
structure UsageDocObj where
  start : Int
  «end» : Int
  measured_usage : Nat
  id : String
  rest : String
  deriving Repr, DecidableEq, Inhabited

/-- Explicit heap for the mutable JavaScript objects involved in the
renewal transformation: usage-document objects and measured-usage
arrays, addressed by list index. -/
structure JSHeap where
  docs : List UsageDocObj
  arrays : List (List MeasuredUsage)
  deriving Repr, DecidableEq, Inhabited

/-- Models the JavaScript `String.prototype.startsWith` used by
`zeroUsage`: `pre` is a character-level prefix of `s` (equivalent to the
code-unit test for the ASCII strings involved). -/
def jsStartsWith (s pre : String) : Bool := pre.data.isPrefixOf s.data

/-- Body of the `for` loop of `zeroUsage` (renewer index.js 188-190):
an entry whose measure starts with the literal `"previous"` gets its
quantity set to 0, any other entry is left alone. -/
def zeroEntry (e : MeasuredUsage) : MeasuredUsage :=
  if jsStartsWith e.measure "previous" then { e with quantity := 0 } else e

/-- Embeds `zeroUsage` (renewer index.js 185-193).  `extend({}, usage)`
allocates a new object with the same field values — a shallow clone, so
the clone's `measured_usage` field is the *same array reference* as the
input's.  The loop then mutates the quantities of that shared array in
place.  Returns the heap after the call and the reference of the clone. -/
def zeroUsage (h : JSHeap) (usage : Nat) : JSHeap × Nat :=
  let usageObj := h.docs.getD usage default
  let clonedUsage := usageObj
  let cloneRef := h.docs.length
  let h1 : JSHeap := { h with docs := h.docs ++ [clonedUsage] }
  let arr := h1.arrays.getD clonedUsage.measured_usage []
  let h2 : JSHeap :=
    { h1 with arrays := h1.arrays.set clonedUsage.measured_usage (arr.map zeroEntry) }
  (h2, cloneRef)

/-- Embeds `refreshUsage` (renewer index.js 195-200).  `monthStart`
models `moment().utc().startOf('month').valueOf()`, the epoch-millisecond
timestamp of the beginning of the current UTC month.  The function
assigns `usage.start` and `usage.end` on the *input* object and then
calls `zeroUsage` on it. -/
def refreshUsage (monthStart : Int) (h : JSHeap) (usage : Nat) : JSHeap × Nat :=
  let usageObj := h.docs.getD usage default
  let h1 : JSHeap :=
    { h with docs := h.docs.set usage { usageObj with start := monthStart, «end» := monthStart } }
  zeroUsage h1 usage

/-- Concrete one-document heap used to exercise the transformation. -/
def exampleHeap : JSHeap :=
  { docs := [{ start := 10, «end» := 20, measured_usage := 0, id := "u1", rest := "r" }],
    arrays := [[{ measure := "previous_instances", quantity := 5 },
                { measure := "current_instances", quantity := 2 }]] }

/-!
## Time-bucketed key encoder

The renewer computes its range-scan keys as `'t/' + dbclient.pad16(ms)`
(renewer index.js 371-372).  `pad16` itself lives in the
`abacus-dbclient` utility, outside the sources at hand.
-/

/-- Modelled from the spec: the missing `abacus-dbclient` `pad16`
produces a fixed-width, 16-digit, zero-padded decimal rendering of a
millisecond timestamp; digit `k` positions from the right is
`t / 10 ^ k % 10`.  `padDigits k t` is the list of the low `k` digits of
`t`, most significant first. -/
def padDigits : Nat → Nat → List Char
  | 0, _ => []
  | k + 1, t => Nat.digitChar (t / 10 ^ k) :: padDigits k (t % 10 ^ k)

/-- Modelled from the spec: `pad16` renders the 16 zero-padded decimal
digits of the timestamp as a string. -/
def pad16 (t : Nat) : String := String.mk (padDigits 16 t)

/-- Key encoding used for the carry-over range scan (renewer index.js
371-372): the namespace tag `"t/"` followed by the padded timestamp. -/
def encode (t : Nat) : String := "t/" ++ pad16 t

/-!
## Renewal engine state

Mirrors of the module-level `statistics` and `errors` records of the
renewer (index.js 63-94), threaded explicitly through the sequential
embedding of the callback pipeline.
-/

/-- Mirror of `statistics.db` (renewer index.js 64-68). -/
structure DbStats where
  readSuccess : Nat
  readFailure : Nat
  docsRead : Nat
  deriving Repr, DecidableEq, Inhabited

/-- Mirror of `statistics.usage` (renewer index.js 69-76). -/
structure UsageStats where
  missingToken : Nat
  getFailures : Nat
  getSuccess : Nat
  reportFailures : Nat
  reportSuccess : Nat
  reportConflict : Nat
  deriving Repr, DecidableEq, Inhabited

/-- Mirror of the `errors` record (renewer index.js 86-94). -/
structure RenewErrors where
  missingToken : Bool
  noGetEverHappened : Bool
  noReportEverHappened : Bool
  consecutiveGetFailures : Nat
  consecutiveReportFailures : Nat
  lastError : String
  lastErrorTimestamp : String
  deriving Repr, DecidableEq, Inhabited

/-- Embeds `registerError` (renewer index.js 96-108): stores the
(already formatted) message in `errors.lastError` and the current clock
reading in `errors.lastErrorTimestamp`.  The `edebug` log line and the
`perf.report` call are I/O only. -/
def registerError (errs : RenewErrors) (message nowIso : String) : RenewErrors :=
  { errs with lastError := message, lastErrorTimestamp := nowIso }

/-- Combined renewer state: `statistics.db`, `statistics.usage` and the
`errors` record. -/
structure EngineState where
  dbStats : DbStats
  usageStats : UsageStats
  errs : RenewErrors
  deriving Repr, DecidableEq, Inhabited

/-- Outcome of a reliable-request POST as seen by the `reportUsage`
callback: either a response object with a status code, or a transport
error (truthy `error` argument or no response at all). -/
inductive ReportResponse where
  | response (statusCode : Nat)
  | transportError
  deriving Repr, DecidableEq

/-- Formatted message of `registerError` in `getUsageDoc`; the
`util.format` interpolation of the failing document is abstracted away. -/
def getFailMsg : String := "Failed getting usage"

/-- Formatted message of `registerError` in `reportUsage`. -/
def reportFailMsg : String := "Failed reporting usage"

/-- Formatted message of `registerError` on a failed carry-over range
read in `renewUsagePage`. -/
def dbReadFailMsg : String := "Failed reading usage data"

/-- Embeds the response-handling callback of `reportUsage` (renewer
index.js 221-247).  A 201 counts a success and resets the
consecutive-report-failure streak; a 409 counts a conflict and clears
only `noReportEverHappened`; anything else (other status, transport
error) counts a failure, lengthens the streak and records the error.
Returns the updated usage statistics and errors, and whether the
completion callback was invoked with error arguments
(`cb(error, response)`) rather than plain `cb()`. -/
def reportUsageCallback (resp : ReportResponse) (stats : UsageStats)
    (errs : RenewErrors) (failMsg nowIso : String) :
    UsageStats × RenewErrors × Bool :=
  let failureCase : UsageStats × RenewErrors × Bool :=
    ({ stats with reportFailures := stats.reportFailures + 1 },
     registerError
       { errs with consecutiveReportFailures := errs.consecutiveReportFailures + 1 }
       failMsg nowIso,
     true)
  match resp with
  | .response statusCode =>
      if statusCode = 201 then
        ({ stats with reportSuccess := stats.reportSuccess + 1 },
         { errs with consecutiveReportFailures := 0, noReportEverHappened := false },
         false)
      else if statusCode = 409 then
        ({ stats with reportConflict := stats.reportConflict + 1 },
         { errs with noReportEverHappened := false },
         false)
      else failureCase
  | .transportError => failureCase

/-- Environment of one renewal cycle: the outcome of every external
call.  `fetchOk id` is the usage document (abstract reference) the
collector returns with a 200 for carry-over id `id`, `none` meaning a
non-200 or transport error; `reportResponse d` is the HTTP outcome of
posting the transformed document `d`; `scanError skip` says whether the
`allDocs` range read issued with that `skip` fails; `nowIso` is the
clock reading used for error timestamps. -/
structure PageEnv where
  fetchOk : String → Option Nat
  reportResponse : Nat → ReportResponse
  scanError : Nat → Bool
  nowIso : String

/-- Embeds `getUsageDoc` (renewer index.js 156-183): on a 200 response
the success counters are updated and the callback receives the document;
otherwise the failure counters are updated, the error is recorded, and
the callback receives error arguments. -/
def getUsageDoc (env : PageEnv) (id : String) (st : EngineState) :
    EngineState × Option Nat :=
  match env.fetchOk id with
  | some doc =>
      ({ st with
          usageStats := { st.usageStats with getSuccess := st.usageStats.getSuccess + 1 },
          errs := { st.errs with consecutiveGetFailures := 0, noGetEverHappened := false } },
       some doc)
  | none =>
      ({ st with
          usageStats := { st.usageStats with getFailures := st.usageStats.getFailures + 1 },
          errs := registerError
            { st.errs with consecutiveGetFailures := st.errs.consecutiveGetFailures + 1 }
            getFailMsg env.nowIso },
       none)

/-- Embeds `reportUsage` (renewer index.js 211-248) at the granularity
the pagination claims need: the body posted to the collector is the
sanitized refreshed document derived from `doc`, whose response is
`env.reportResponse doc`; the callback then updates the state via
`reportUsageCallback`.  The returned flag says whether the completion
callback carried error arguments. -/
def reportUsage (env : PageEnv) (doc : Nat) (st : EngineState) :
    EngineState × Bool :=
  let r := reportUsageCallback (env.reportResponse doc) st.usageStats st.errs
    reportFailMsg env.nowIso
  ({ st with usageStats := r.1, errs := r.2.1 }, r.2.2)

/-- Embeds the per-record fan-out of `renewUsagePage` (renewer index.js
305-339), sequentialized record by record: each carry-over reference is
fetched; a fetch callback with error/response invokes the page `failure`
callback with `buildError('get', ...)` and stops that record; otherwise
the document is reported, a report callback with error/response likewise
invokes `failure` with `buildError('report', ...)`; a record whose two
calls both succeed is counted by `countReportedDocs`.  Returns the final
state, the completion count `numDocs`, and the `failure` invocations
(operation tag and carry-over id) in record order. -/
def processRecords (env : PageEnv) :
    EngineState → List String → EngineState × Nat × List (String × String)
  | st, [] => (st, 0, [])
  | st, id :: rest =>
    let f := getUsageDoc env id st
    match f.2 with
    | none =>
        let r := processRecords env f.1 rest
        (r.1, r.2.1, ("get", id) :: r.2.2)
    | some doc =>
        let rep := reportUsage env doc f.1
        if rep.2 then
          let r := processRecords env rep.1 rest
          (r.1, r.2.1, ("report", id) :: r.2.2)
        else
          let r := processRecords env rep.1 rest
          (r.1, r.2.1 + 1, r.2.2)

/-- Observable result of one `renewUsagePage` pagination run: final
state, number of `allDocs` page reads performed, carry-over ids whose
documents were fetched from the collector, `failure` callback
invocations, and whether the `success` callback ran. -/
structure PageResult where
  state : EngineState
  reads : Nat
  fetched : List String
  failures : List (String × String)
  succeeded : Bool
  deriving Repr, DecidableEq

/-- Page returned by the modelled `allDocs` range read: the carry-over
store range `[startId, endId)` is the list `store` of the collector ids
it holds in key order, and a read with `limit = pageSize` and `skip`
returns the slice `(store.drop skip).take pageSize`. -/
def pageAt (store : List String) (pageSize skip : Nat) : List String :=
  (store.drop skip).take pageSize

/-- Embeds `renewUsagePage` (renewer index.js 265-341), the page scan of
the renewal cycle over the modelled range (see `pageAt`); the read fails
when `env.scanError skip` is set.

On a scan failure the code increments `statistics.db.readFailure`,
records the error and invokes `failure(error)`; the missing `return`
after that call then evaluates `usage.length` with `usage` undefined, so
the callback throws a TypeError before touching any record and the cycle
stops there.

On a successful read: an empty page means the scan is complete
(`success`); otherwise every record of the page is processed and, once
`numDocs` reaches the page length, a page shorter than `pageSize` ends
the cycle with `success` while a full page recurses with
`skip + numDocs`.  If some record failed, the completion counter never
reaches the page length, so neither `success` nor the recursion runs. -/
def renewUsagePage (env : PageEnv) (store : List String) (pageSize : Nat)
    (st : EngineState) (skip : Nat) : PageResult :=
  if env.scanError skip then
    { state :=
        { st with
            dbStats := { st.dbStats with readFailure := st.dbStats.readFailure + 1 },
            errs := registerError st.errs dbReadFailMsg env.nowIso },
      reads := 1, fetched := [], failures := [("db", dbReadFailMsg)],
      succeeded := false }
  else
    let st1 : EngineState :=
      { st with
          dbStats :=
            { st.dbStats with
                readSuccess := st.dbStats.readSuccess + 1,
                docsRead := st.dbStats.docsRead + (pageAt store pageSize skip).length } }
    if hlen : (pageAt store pageSize skip).length = 0 then
      { state := st1, reads := 1, fetched := [], failures := [], succeeded := true }
    else
      let pr := processRecords env st1 (pageAt store pageSize skip)
      if hnum : pr.2.1 = (pageAt store pageSize skip).length then
        if hfull : (pageAt store pageSize skip).length < pageSize then
          { state := pr.1, reads := 1, fetched := pageAt store pageSize skip,
            failures := pr.2.2, succeeded := true }
        else
          -- code recurses with `skip + numDocs`; in this branch `hnum`
          -- says `numDocs` equals the page length
          let rest := renewUsagePage env store pageSize pr.1
            (skip + (pageAt store pageSize skip).length)
          { rest with
              reads := rest.reads + 1,
              fetched := pageAt store pageSize skip ++ rest.fetched }
      else
        { state := pr.1, reads := 1, fetched := pageAt store pageSize skip,
          failures := pr.2.2, succeeded := false }
termination_by store.length - skip
decreasing_by
  have hp : (pageAt store pageSize skip).length = min pageSize (store.length - skip) := by
    simp [pageAt]
  omega

/-!
## Cache-aside resolution

Shallow embedding of the plan resolvers of the provisioning plugin and
of the plan-mapping resolver and default seeding of the plan-mappings
module.  Memory caches and document stores are modelled as functions
from keys to optional values; JavaScript truthiness of a cache hit or of
a returned document coincides with `Option` presence for the object
documents and non-empty plan ids involved.  The per-key locks serialize
concurrent resolves of the same key on the single cooperative thread;
the algorithm inside the locked section is what is modelled. -/

/-- Update of a key-to-value map, used for the cache `set` helpers
(`mcache`, `rcache`, `pcache`, the `*MappingCache` functions) and for
`db.put` (create or overwrite under the document id). -/
def stringMapPut {V : Type} (m : String → Option V) (k : String) (v : V) :
    String → Option V :=
  fun k' => if k' = k then some v else m k'

/-- Embeds `metering`, `rating` and `pricing` of the provisioning plugin
(index.js 152-250), three instances of one algorithm on their own cache,
bundled resources and plan db: under the per-key lock, a cache hit is
returned as is; otherwise the compile-time bundled resource
(`require('./plans/<kind>/' + id)` validated against the kind's schema;
a missing module or a validation failure is caught and falls through) is
cached and returned on a hit; otherwise the plan db is read at
`['k', id].join('/')` and a hit is cached and returned as
`undbify(doc)`, while an absent read result is returned without caching. -/
def planResolve {V D : Type} (cache bundle : String → Option V)
    (db : String → Option D) (undbify : D → V) (mpid : String) :
    Option V × (String → Option V) :=
  match cache mpid with
  | some cp => (some cp, cache)
  | none =>
    match bundle mpid with
    | some p => (some p, stringMapPut cache mpid p)
    | none =>
      match db ("k" ++ "/" ++ mpid) with
      | some doc => (some (undbify doc), stringMapPut cache mpid (undbify doc))
      | none => (none, cache)

/-- Composite mapping id `['k', resourceType, planName].join('/')`
(mappings index.js 110, 139). -/
def mappingId (resourceType planName : String) : String :=
  "k" ++ "/" ++ resourceType ++ "/" ++ planName

/-- Embeds `mappedMeteringPlan`, `mappedRatingPlan` and
`mappedPricingPlan` (mappings index.js 138-212), three instances of one
algorithm on their own cache and mappings db: compute the composite id,
then — under the per-id lock — return a cache hit as is, otherwise read
the mappings db at the id and, on a hit, cache and return
`undbify(doc).planId` (modelled by `undbifyPlanId`), otherwise return
the absent read result without caching. -/
def mappedPlanResolve {V D : Type} (cache : String → Option V)
    (db : String → Option D) (undbifyPlanId : D → V)
    (resourceType planName : String) : Option V × (String → Option V) :=
  match cache (mappingId resourceType planName) with
  | some cachedPlanId => (some cachedPlanId, cache)
  | none =>
    match db (mappingId resourceType planName) with
    | some doc =>
        (some (undbifyPlanId doc),
         stringMapPut cache (mappingId resourceType planName) (undbifyPlanId doc))
    | none => (none, cache)

/-- Modelled from the spec: the generic `resolve(key)` algorithm —
under the per-key lock, check the memory cache and return a hit;
otherwise check the kind's compile-time-bundled static resource,
populating the cache on a hit; otherwise read the persistent store (at
the canonical store id derived from the key, the store value translated
by `fromDb`), populating the cache on a hit; when all tiers miss, return
absent without populating the cache. -/
def resolveSpec {V D : Type} (cache bundle : String → Option V)
    (store : String → Option D) (fromDb : D → V) (storeId : String → String)
    (key : String) : Option V × (String → Option V) :=
  match cache key with
  | some v => (some v, cache)
  | none =>
    match bundle key with
    | some v => (some v, stringMapPut cache key v)
    | none =>
      match store (storeId key) with
      | some d => (some (fromDb d), stringMapPut cache key (fromDb d))
      | none => (none, cache)

/-- State of one mapping kind: its memory cache and its mappings db.
A stored mapping document is represented by the plan id it carries. -/
structure MappingState where
  cache : String → Option String
  store : String → Option String

/-- One read of a `(resourceType, planName)` mapping through the
`mappedMeteringPlan`-style resolver, threading the cache update. -/
def readMapping (st : MappingState) (resourceType planName : String) :
    Option String × MappingState :=
  let r := mappedPlanResolve st.cache st.store (fun planId => planId)
    resourceType planName
  (r.1, { st with cache := r.2 })

/-- Embeds `newMeteringMapping`, `newRatingMapping` and
`newPricingMapping` (mappings index.js 107-134): a `db.put` of
`{planId, _id: ['k', resourceType, planName].join('/')}`.  The cache is
not touched. -/
def newMapping (st : MappingState) (resourceType planName planId : String) :
    MappingState :=
  { st with store := stringMapPut st.store (mappingId resourceType planName) planId }

/-- Inner loop of the `storeMapping` generator (mappings index.js
217-221) over the plan names of one resource type: read each mapping and
create it exactly when the read returns absent.  Returns the final state
and the ids written, in order. -/
def storeMappingPlans (resourceType : String) :
    MappingState → List (String × String) → MappingState × List String
  | st, [] => (st, [])
  | st, (planName, planId) :: rest =>
    let r := readMapping st resourceType planName
    match r.1 with
    | some _ => storeMappingPlans resourceType r.2 rest
    | none =>
      let st2 := newMapping r.2 resourceType planName planId
      let w := storeMappingPlans resourceType st2 rest
      (w.1, mappingId resourceType planName :: w.2)

/-- Embeds `storeMapping` (mappings index.js 214-230): iterate the
default table (`resourceType → planName → planId`, the two nested `for
in` loops over object keys modelled by association lists), creating
every mapping whose read returns absent; when the generator finishes
without error, the completion callback `cb()` runs (returned flag). -/
def storeMapping :
    MappingState → List (String × List (String × String)) →
      MappingState × List String × Bool
  | st, [] => (st, [], true)
  | st, (resourceType, plans) :: rest =>
    let w := storeMappingPlans resourceType st plans
    let r := storeMapping w.1 rest
    (r.1, w.2 ++ r.2.1, r.2.2)

/-- Embeds `storeDefaultMappings` (mappings index.js 233-246): run
`storeMapping` for the metering, rating and pricing kinds on their
default tables; `countCb` invokes the caller's callback `cb` once the
completion callbacks of all three have run (`++callCount == 3`).
Returns the three final states, all store writes, and whether `cb` was
invoked. -/
def storeDefaultMappings (stM stR stP : MappingState)
    (meteringTable ratingTable pricingTable :
      List (String × List (String × String))) :
    (MappingState × MappingState × MappingState) × List String × Bool :=
  let m := storeMapping stM meteringTable
  let r := storeMapping stR ratingTable
  let p := storeMapping stP pricingTable
  let callCount := (if m.2.2 then 1 else 0) + (if r.2.2 then 1 else 0) +
    (if p.2.2 then 1 else 0)
  ((m.1, r.1, p.1), m.2.1 ++ r.2.1 ++ p.2.1, callCount == 3)

/-- A mapping id is resolvable in a state when the resolver's read
returns it: present in the memory cache or in the mappings db. -/
def resolvable (st : MappingState) (id : String) : Bool :=
  (st.cache id).isSome || (st.store id).isSome

/-!
## Time-bucketed key encoder: claim C8
-/

/-- A padded rendering always has exactly `k` characters. -/
theorem padDigits_length : ∀ k t : Nat, (padDigits k t).length = k
  | 0, _ => rfl
  | k + 1, t => by simp [padDigits, padDigits_length k]

/-- Digit characters are ordered like the digits they render. -/
theorem digitChar_lt_digitChar :
    ∀ a < 10, ∀ b < 10, a < b → Nat.digitChar a < Nat.digitChar b := by
  decide

/-- Zero-padded digit lists of numbers below `10 ^ k` compare
lexicographically like the numbers. -/
theorem padDigits_lex :
    ∀ k a b : Nat, a < b → b < 10 ^ k →
      List.Lex (· < ·) (padDigits k a) (padDigits k b)
  | 0, _a, _b, hab, hb => by rw [Nat.pow_zero] at hb; omega
  | k + 1, a, b, hab, hb => by
    have hpow : 0 < 10 ^ k := Nat.pos_pow_of_pos k (by omega)
    have hbdig : b / 10 ^ k < 10 := by
      rw [Nat.div_lt_iff_lt_mul hpow]
      calc b < 10 ^ (k + 1) := hb
        _ = 10 * 10 ^ k := by ring
    have hadig : a / 10 ^ k ≤ b / 10 ^ k := Nat.div_le_div_right (le_of_lt hab)
    rcases Nat.lt_or_ge (a / 10 ^ k) (b / 10 ^ k) with hlt | hge
    · exact List.Lex.rel
        (digitChar_lt_digitChar _ (by omega) _ hbdig hlt)
    · have heq : a / 10 ^ k = b / 10 ^ k := le_antisymm hadig hge
      have hmod : a % 10 ^ k < b % 10 ^ k := by
        have ha2 := Nat.div_add_mod a (10 ^ k)
        have hb2 := Nat.div_add_mod b (10 ^ k)
        rw [heq] at ha2
        omega
      have hbmod : b % 10 ^ k < 10 ^ k := Nat.mod_lt _ hpow
      show List.Lex (· < ·)
        (Nat.digitChar (a / 10 ^ k) :: padDigits k (a % 10 ^ k))
        (Nat.digitChar (b / 10 ^ k) :: padDigits k (b % 10 ^ k))
      rw [heq]
      exact List.Lex.cons (padDigits_lex k _ _ hmod hbmod)

/-- Character list of an encoded key: the tag `"t/"` then the digits. -/
theorem encode_toList (t : Nat) :
    (encode t).toList = 't' :: '/' :: padDigits 16 t := by
  show (("t/" : String) ++ pad16 t).data = _
  rw [String.data_append]
  rfl

/-- C8: the carry-over key encoding is strictly monotone — for
timestamps `a < b` (at most 16 decimal digits), `encode a < encode b` in
the lexicographic string order (string `<` is lexicographic on the
character lists, `String.lt_iff_toList_lt`) — and every encoded key has
the same constant length 18 (`"t/"` plus 16 digits). -/
theorem encode_monotone (a b : Nat) (hab : a < b) (hb : b < 10 ^ 16) :
    encode a < encode b ∧
    (encode a).length = 18 ∧ (encode b).length = 18 := by
  refine ⟨?_, ?_, ?_⟩
  · rw [String.lt_iff_toList_lt, encode_toList, encode_toList]
    exact List.Lex.cons (List.Lex.cons (padDigits_lex 16 a b hab hb))
  · show (encode a).data.length = 18
    have := encode_toList a
    rw [String.toList] at this
    rw [this]
    simp [padDigits_length]
  · show (encode b).data.length = 18
    have := encode_toList b
    rw [String.toList] at this
    rw [this]
    simp [padDigits_length]

/-- Closed witness for `encode_monotone`. -/
theorem encode_monotone_witness :
    (123 < 124 ∧ 124 < 10 ^ 16) ∧ encode 123 < encode 124 :=
  ⟨⟨by decide, by norm_num⟩, (encode_monotone 123 124 (by decide) (by norm_num)).1⟩

/-!
## Renewal transformation: claims C6, C7, C1
-/

/-- C6: the document returned by `zeroUsage` has quantity 0 exactly on
the `measured_usage` entries whose measure starts with `"previous"`;
entries with other measures and all other fields of the returned
document keep the original values (witnessed by the pointwise
characterization of `zeroEntry` together with the fact that the output
array is the entrywise `zeroEntry` image of the input array). -/
theorem zeroUsage_zeroes_exactly_previous (h : JSHeap) (r : Nat)
    (ha : (h.docs.getD r default).measured_usage < h.arrays.length) :
    ((zeroUsage h r).1.docs.getD (zeroUsage h r).2 default).start
        = (h.docs.getD r default).start ∧
    ((zeroUsage h r).1.docs.getD (zeroUsage h r).2 default).«end»
        = (h.docs.getD r default).«end» ∧
    ((zeroUsage h r).1.docs.getD (zeroUsage h r).2 default).id
        = (h.docs.getD r default).id ∧
    ((zeroUsage h r).1.docs.getD (zeroUsage h r).2 default).rest
        = (h.docs.getD r default).rest ∧
    (zeroUsage h r).1.arrays.getD
        ((zeroUsage h r).1.docs.getD (zeroUsage h r).2 default).measured_usage []
      = (h.arrays.getD (h.docs.getD r default).measured_usage []).map zeroEntry ∧
    (∀ e : MeasuredUsage, (zeroEntry e).measure = e.measure ∧
      (zeroEntry e).quantity
        = if jsStartsWith e.measure "previous" then 0 else e.quantity) := by
  have ha' : (h.docs[r]?.getD default).measured_usage < h.arrays.length := by
    simpa [List.getD] using ha
  refine ⟨?_, ?_, ?_, ?_, ?_, ?_⟩
  · simp [zeroUsage, List.getD, List.getElem?_concat_length]
  · simp [zeroUsage, List.getD, List.getElem?_concat_length]
  · simp [zeroUsage, List.getD, List.getElem?_concat_length]
  · simp [zeroUsage, List.getD, List.getElem?_concat_length]
  · simp [zeroUsage, List.getD, List.getElem?_concat_length, ha']
  · intro e
    by_cases hc : jsStartsWith e.measure "previous" = true <;> simp [zeroEntry, hc]

/-- Closed witness for `zeroUsage_zeroes_exactly_previous`, at the
spec's example document. -/
theorem zeroUsage_zeroes_exactly_previous_witness :
    ((exampleHeap.docs.getD 0 default).measured_usage < exampleHeap.arrays.length) ∧
    ((zeroUsage exampleHeap 0).1.arrays.getD
        ((zeroUsage exampleHeap 0).1.docs.getD (zeroUsage exampleHeap 0).2
          default).measured_usage []).map MeasuredUsage.quantity = [0, 2] := by
  refine ⟨by decide, ?_⟩
  have h := zeroUsage_zeroes_exactly_previous exampleHeap 0 (by decide)
  rw [h.2.2.2.2.1]
  decide

/-- C7: the document produced by `refreshUsage` has both its `start` and
its `end` equal to `monthStart`, the epoch-millisecond beginning of the
current UTC month (`moment().utc().startOf('month').valueOf()`). -/
theorem refreshUsage_sets_current_month (monthStart : Int) (h : JSHeap)
    (r : Nat) (hr : r < h.docs.length) :
    ((refreshUsage monthStart h r).1.docs.getD (refreshUsage monthStart h r).2
        default).start = monthStart ∧
    ((refreshUsage monthStart h r).1.docs.getD (refreshUsage monthStart h r).2
        default).«end» = monthStart := by
  constructor <;>
    simp [refreshUsage, zeroUsage, List.getD, List.getElem?_concat_length,
      List.getElem?_set_self, hr]

/-- Closed witness for `refreshUsage_sets_current_month`. -/
theorem refreshUsage_sets_current_month_witness :
    0 < exampleHeap.docs.length ∧
    ((refreshUsage 100 exampleHeap 0).1.docs.getD (refreshUsage 100 exampleHeap 0).2
        default).start = 100 :=
  ⟨by decide, (refreshUsage_sets_current_month 100 exampleHeap 0 (by decide)).1⟩

/-- C1 counterexample: the renewal transformation does mutate the input
document in place.  On the concrete heap `exampleHeap`, after
`refreshUsage`, the input document's `start` changed from 10 to 100, its
`end` changed from 20 to 100, and the quantity of its first
`measured_usage` entry (measure `"previous_instances"`) changed from 5
to 0 — `refreshUsage` assigns `usage.start`/`usage.end` on the input and
the `extend({}, usage)` clone in `zeroUsage` shares the input's
`measured_usage` array, which the zeroing loop mutates. -/
theorem refreshUsage_mutates_input_cex :
    ((refreshUsage 100 exampleHeap 0).1.docs.getD 0 default).start = 100 ∧
    (exampleHeap.docs.getD 0 default).start = 10 ∧
    ((refreshUsage 100 exampleHeap 0).1.docs.getD 0 default).«end» = 100 ∧
    (exampleHeap.docs.getD 0 default).«end» = 20 ∧
    (((refreshUsage 100 exampleHeap 0).1.arrays.getD 0 []).getD 0
        default).quantity = 0 ∧
    ((exampleHeap.arrays.getD 0 []).getD 0 default).quantity = 5 := by
  decide

/-- C1 (amended): `refreshUsage` mutates the input document in place —
afterwards the input's `start` and `end` equal the month start and its
`measured_usage` array holds the entrywise `zeroEntry` image of its
previous contents (the array reference itself is unchanged) — and the
returned derived copy is a distinct object carrying exactly the same
field values as the mutated input. -/
theorem refreshUsage_mutates_input (monthStart : Int) (h : JSHeap) (r : Nat)
    (hr : r < h.docs.length)
    (ha : (h.docs.getD r default).measured_usage < h.arrays.length) :
    ((refreshUsage monthStart h r).1.docs.getD r default).start = monthStart ∧
    ((refreshUsage monthStart h r).1.docs.getD r default).«end» = monthStart ∧
    ((refreshUsage monthStart h r).1.docs.getD r default).measured_usage
        = (h.docs.getD r default).measured_usage ∧
    (refreshUsage monthStart h r).1.arrays.getD
        (h.docs.getD r default).measured_usage []
      = (h.arrays.getD (h.docs.getD r default).measured_usage []).map zeroEntry ∧
    (refreshUsage monthStart h r).2 ≠ r ∧
    (refreshUsage monthStart h r).1.docs.getD (refreshUsage monthStart h r).2
        default
      = (refreshUsage monthStart h r).1.docs.getD r default := by
  have ha' : h.docs[r].measured_usage < h.arrays.length := by
    simpa [List.getD, List.getElem?_eq_getElem hr] using ha
  refine ⟨?_, ?_, ?_, ?_, ?_, ?_⟩ <;>
    simp [refreshUsage, zeroUsage, List.getD, List.getElem?_concat_length,
      List.getElem?_set_self, List.getElem?_append, hr, ha', Nat.ne_of_gt hr]

/-- Closed witness for `refreshUsage_mutates_input`. -/
theorem refreshUsage_mutates_input_witness :
    (0 < exampleHeap.docs.length ∧
      (exampleHeap.docs.getD 0 default).measured_usage
        < exampleHeap.arrays.length) ∧
    ((refreshUsage 100 exampleHeap 0).1.docs.getD 0 default).start = 100 :=
  ⟨⟨by decide, by decide⟩,
    (refreshUsage_mutates_input 100 exampleHeap 0 (by decide) (by decide)).1⟩

/-!
## Report response handling: claims C5 and C10
-/

/-- C5: a 409 report response makes `reportUsage` invoke the record's
completion callback with no error arguments, so in `renewUsagePage` the
record counts as completed and the cycle proceeds to the next record or
page decision; `statistics.usage.reportConflict` is incremented and
`statistics.usage.reportFailures` is unchanged. -/
theorem report_conflict_continues_cycle (env : PageEnv) (st : EngineState)
    (id : String) (doc : Nat)
    (hf : env.fetchOk id = some doc)
    (hr : env.reportResponse doc = ReportResponse.response 409) :
    (reportUsage env doc (getUsageDoc env id st).1).2 = false ∧
    (processRecords env st [id]).2.1 = 1 ∧
    (processRecords env st [id]).2.2 = [] ∧
    (processRecords env st [id]).1.usageStats.reportConflict
        = st.usageStats.reportConflict + 1 ∧
    (processRecords env st [id]).1.usageStats.reportFailures
        = st.usageStats.reportFailures := by
  refine ⟨?_, ?_, ?_, ?_, ?_⟩ <;>
    simp [processRecords, getUsageDoc, reportUsage, reportUsageCallback, hf, hr]

/-- Closed witness for `report_conflict_continues_cycle`. -/
theorem report_conflict_continues_cycle_witness :
    ((PageEnv.mk (fun _ => some 7) (fun _ => .response 409) (fun _ => false)
        "now").fetchOk "u1" = some 7 ∧
      (PageEnv.mk (fun _ => some 7) (fun _ => .response 409) (fun _ => false)
        "now").reportResponse 7 = ReportResponse.response 409) ∧
    (processRecords
        (PageEnv.mk (fun _ => some 7) (fun _ => .response 409) (fun _ => false)
          "now") default ["u1"]).2.1 = 1 :=
  ⟨⟨rfl, rfl⟩,
    (report_conflict_continues_cycle _ default "u1" 7 rfl rfl).2.1⟩

/-- C10: in the `reportUsage` callback, a 409 leaves
`errors.consecutiveReportFailures` unchanged (it only increments
`statistics.usage.reportConflict` and clears
`errors.noReportEverHappened`), a 201 resets the streak to 0, and no
response other than a 201 can clear an ongoing failure streak. -/
theorem reportUsageCallback_only_201_resets (stats : UsageStats)
    (errs : RenewErrors) (failMsg nowIso : String) :
    (reportUsageCallback (.response 409) stats errs failMsg
        nowIso).2.1.consecutiveReportFailures = errs.consecutiveReportFailures ∧
    (reportUsageCallback (.response 409) stats errs failMsg
        nowIso).1.reportConflict = stats.reportConflict + 1 ∧
    (reportUsageCallback (.response 409) stats errs failMsg
        nowIso).2.1.noReportEverHappened = false ∧
    (reportUsageCallback (.response 201) stats errs failMsg
        nowIso).2.1.consecutiveReportFailures = 0 ∧
    (∀ resp : ReportResponse, resp ≠ ReportResponse.response 201 →
      0 < errs.consecutiveReportFailures →
      0 < (reportUsageCallback resp stats errs failMsg
            nowIso).2.1.consecutiveReportFailures) := by
  refine ⟨by simp [reportUsageCallback], by simp [reportUsageCallback],
    by simp [reportUsageCallback], by simp [reportUsageCallback], ?_⟩
  intro resp hne hpos
  cases resp with
  | transportError => simp [reportUsageCallback, registerError]
  | response statusCode =>
    by_cases h201 : statusCode = 201
    · exact absurd (by rw [h201]) hne
    · by_cases h409 : statusCode = 409 <;>
        simp [reportUsageCallback, registerError, h201, h409] <;> omega

/-- Closed witness for `reportUsageCallback_only_201_resets`. -/
theorem reportUsageCallback_only_201_resets_witness :
    (ReportResponse.response 500 ≠ ReportResponse.response 201 ∧
      0 < (RenewErrors.mk false true true 0 3 "" "").consecutiveReportFailures) ∧
    0 < (reportUsageCallback (.response 500) default
          (RenewErrors.mk false true true 0 3 "" "") "m"
          "t").2.1.consecutiveReportFailures :=
  ⟨⟨by decide, by decide⟩,
    (reportUsageCallback_only_201_resets default
        (RenewErrors.mk false true true 0 3 "" "") "m" "t").2.2.2.2
      (ReportResponse.response 500) (by decide) (by decide)⟩

/-!
## Scan failure: claim C3
-/

/-- C3: when the carry-over range read inside `renewUsagePage` fails,
the cycle aborts: the `failure` callback is invoked with the scan error,
`statistics.db.readFailure` is incremented, the error is recorded in the
last-error state, and no usage document is fetched or reported for the
cycle — the pagination performs no further page read (the missing
`return` is immediately followed by a TypeError on `usage.length`, so
control never reaches the per-record loop). -/
theorem renewUsagePage_scan_failure (env : PageEnv) (store : List String)
    (pageSize : Nat) (st : EngineState) (skip : Nat)
    (h : env.scanError skip = true) :
    renewUsagePage env store pageSize st skip =
      { state :=
          { st with
              dbStats := { st.dbStats with readFailure := st.dbStats.readFailure + 1 },
              errs := registerError st.errs dbReadFailMsg env.nowIso },
        reads := 1, fetched := [], failures := [("db", dbReadFailMsg)],
        succeeded := false } := by
  rw [renewUsagePage.eq_def]
  simp [h]

/-- Closed witness for `renewUsagePage_scan_failure`. -/
theorem renewUsagePage_scan_failure_witness :
    (PageEnv.mk (fun _ => none) (fun _ => .transportError) (fun _ => true)
        "now").scanError 0 = true ∧
    (renewUsagePage
        (PageEnv.mk (fun _ => none) (fun _ => .transportError) (fun _ => true)
          "now") ["u1"] 10 default 0).fetched = [] :=
  ⟨rfl, by
    rw [renewUsagePage_scan_failure
      (PageEnv.mk (fun _ => none) (fun _ => .transportError) (fun _ => true)
        "now") ["u1"] 10 default 0 rfl]⟩

/-!
## Pagination: claim C2
-/

/-- Every element of a page comes from the store range. -/
theorem pageAt_subset (store : List String) (pageSize skip : Nat) :
    ∀ id ∈ pageAt store pageSize skip, id ∈ store := fun _ hid =>
  List.drop_subset _ _ (List.take_subset _ _ hid)

/-- When every fetch returns a document and every report gets a 201,
each record of a page completes and no `failure` callback runs. -/
theorem processRecords_all_ok (env : PageEnv)
    (hrep : ∀ d, env.reportResponse d = ReportResponse.response 201) :
    ∀ (ids : List String), (∀ id ∈ ids, (env.fetchOk id).isSome) →
      ∀ st : EngineState,
        (processRecords env st ids).2.1 = ids.length ∧
        (processRecords env st ids).2.2 = [] := by
  intro ids
  induction ids with
  | nil => intro _ st; simp [processRecords]
  | cons id rest ih =>
    intro hf st
    obtain ⟨doc, hdoc⟩ :=
      Option.isSome_iff_exists.mp (hf id (List.mem_cons_self id rest))
    have hf' : ∀ i ∈ rest, (env.fetchOk i).isSome :=
      fun i hi => hf i (List.mem_cons_of_mem _ hi)
    simp [processRecords, getUsageDoc, hdoc, reportUsage,
      reportUsageCallback, hrep doc, ih hf']

/-- On a cycle where the scan never fails, every fetch returns a
document and every report gets a 201, the pagination succeeds and
performs exactly `(store.length - skip) / pageSize + 1` page reads. -/
theorem renewUsagePage_happy (env : PageEnv) (store : List String)
    (pageSize : Nat) (hps : 0 < pageSize)
    (hscan : ∀ k, env.scanError k = false)
    (hfetch : ∀ id ∈ store, (env.fetchOk id).isSome)
    (hrep : ∀ d, env.reportResponse d = ReportResponse.response 201) :
    ∀ (skip : Nat) (st : EngineState),
      (renewUsagePage env store pageSize st skip).succeeded = true ∧
      (renewUsagePage env store pageSize st skip).reads
        = (store.length - skip) / pageSize + 1 := by
  have main : ∀ (n skip : Nat) (st : EngineState), store.length - skip = n →
      (renewUsagePage env store pageSize st skip).succeeded = true ∧
      (renewUsagePage env store pageSize st skip).reads
        = (store.length - skip) / pageSize + 1 := by
    intro n
    induction n using Nat.strong_induction_on with
    | _ n ih =>
      intro skip st hn
      have hplen : (pageAt store pageSize skip).length
          = min pageSize (store.length - skip) := by simp [pageAt]
      have hcomplete :=
        processRecords_all_ok env hrep (pageAt store pageSize skip)
          (fun i hi => hfetch i (pageAt_subset store pageSize skip i hi))
      rw [renewUsagePage.eq_def]
      simp only [hscan skip, Bool.false_eq_true, if_false]
      by_cases hz : (pageAt store pageSize skip).length = 0
      · rw [dif_pos hz]
        have : store.length - skip = 0 ∨ pageSize = 0 := by omega
        rcases this with h0 | h0
        · simp [h0]
        · omega
      · rw [dif_neg hz]
        rw [dif_pos (hcomplete _).1]
        by_cases hlt : (pageAt store pageSize skip).length < pageSize
        · rw [dif_pos hlt]
          have : store.length - skip < pageSize := by omega
          simp [Nat.div_eq_of_lt this]
        · rw [dif_neg hlt]
          have hfull : (pageAt store pageSize skip).length = pageSize := by omega
          have hrem : pageSize ≤ store.length - skip := by omega
          have hmeas :
              store.length - (skip + (pageAt store pageSize skip).length) < n := by
            omega
          have hrec := fun st2 => ih _ hmeas
            (skip + (pageAt store pageSize skip).length) st2 rfl
          have hdiv : (store.length - skip) / pageSize
              = (store.length - (skip + (pageAt store pageSize skip).length))
                  / pageSize + 1 := by
            rw [hfull, Nat.sub_add_eq]
            exact Nat.div_eq_sub_div hps hrem
          constructor
          · simpa using (hrec _).1
          · rw [hdiv]
            simpa using (hrec _).2
  exact fun skip st => main (store.length - skip) skip st rfl

/-- For any environment whatsoever, pagination terminates: the number of
page reads of a run over a finite store is bounded. -/
theorem renewUsagePage_reads_le (env : PageEnv) (store : List String)
    (pageSize : Nat) :
    ∀ (skip : Nat) (st : EngineState),
      (renewUsagePage env store pageSize st skip).reads
        ≤ (store.length - skip) / pageSize + 1 := by
  have main : ∀ (n skip : Nat) (st : EngineState), store.length - skip = n →
      (renewUsagePage env store pageSize st skip).reads
        ≤ (store.length - skip) / pageSize + 1 := by
    intro n
    induction n using Nat.strong_induction_on with
    | _ n ih =>
      intro skip st hn
      have hplen : (pageAt store pageSize skip).length
          = min pageSize (store.length - skip) := by simp [pageAt]
      rw [renewUsagePage.eq_def]
      split
      · simp
      · simp only []
        split
        · simp
        · split
          · -- all records of the page completed
            split
            · -- page shorter than the limit: done after this read
              simp
            · -- full page: the recursion costs one extra read
              have hps : 0 < pageSize := by omega
              have hrem : pageSize ≤ store.length - skip := by omega
              have hmeas :
                  store.length - (skip + (pageAt store pageSize skip).length)
                    < n := by omega
              have hb := fun st2 => ih _ hmeas
                (skip + (pageAt store pageSize skip).length) st2 rfl
              have hdiv : (store.length - skip) / pageSize
                  = (store.length - (skip + (pageAt store pageSize skip).length))
                      / pageSize + 1 := by
                have hfull : (pageAt store pageSize skip).length = pageSize := by
                  omega
                rw [hfull, Nat.sub_add_eq]
                exact Nat.div_eq_sub_div hps hrem
              refine le_trans (Nat.add_le_add_right (hb _) 1) ?_
              rw [hdiv]
          · -- some record failed: the cycle stops after this read
            simp
  exact fun skip st => main (store.length - skip) skip st rfl

/-- C2: on a cycle where every record fetch and report succeeds, a store
range holding exactly `pageSize` records costs exactly 2 page reads (one
full page, then one empty page) before the `success` callback, a range
holding exactly `pageSize - 1` records costs exactly 1 page read, and
pagination terminates for every finite store (the page-read count of any
run is finitely bounded). -/
theorem renewUsagePage_pagination (env : PageEnv) (store : List String)
    (pageSize : Nat) (st : EngineState) (hps : 0 < pageSize)
    (hscan : ∀ k, env.scanError k = false)
    (hfetch : ∀ id ∈ store, (env.fetchOk id).isSome)
    (hrep : ∀ d, env.reportResponse d = ReportResponse.response 201) :
    (store.length = pageSize →
      (renewUsagePage env store pageSize st 0).reads = 2 ∧
      (renewUsagePage env store pageSize st 0).succeeded = true) ∧
    (store.length = pageSize - 1 →
      (renewUsagePage env store pageSize st 0).reads = 1 ∧
      (renewUsagePage env store pageSize st 0).succeeded = true) ∧
    (∀ (env' : PageEnv) (st' : EngineState) (skip : Nat),
      (renewUsagePage env' store pageSize st' skip).reads
        ≤ (store.length - skip) / pageSize + 1) := by
  have h := renewUsagePage_happy env store pageSize hps hscan hfetch hrep 0 st
  refine ⟨fun hlen => ⟨?_, h.1⟩, fun hlen => ⟨?_, h.1⟩,
    fun env' st' skip => renewUsagePage_reads_le env' store pageSize skip st'⟩
  · rw [h.2, hlen, Nat.sub_zero, Nat.div_self hps]
  · rw [h.2, hlen, Nat.sub_zero, Nat.div_eq_of_lt (by omega)]

/-- Closed witness for `renewUsagePage_pagination` at `pageSize = 2`
with a two-record store and an all-successful environment. -/
theorem renewUsagePage_pagination_witness :
    (0 < 2 ∧ (["u1", "u2"] : List String).length = 2) ∧
    (renewUsagePage
        (PageEnv.mk (fun _ => some 0) (fun _ => .response 201) (fun _ => false)
          "now") ["u1", "u2"] 2 default 0).reads = 2 :=
  ⟨⟨by decide, rfl⟩,
    ((renewUsagePage_pagination
        (PageEnv.mk (fun _ => some 0) (fun _ => .response 201) (fun _ => false)
          "now") ["u1", "u2"] 2 default (by decide) (fun _ => rfl)
        (by decide) (fun _ => rfl)).1 rfl).1⟩

/-!
## Cache-aside resolution: claim C4
-/

/-- C4 counterexample: the mapping resolver does not execute the
three-tier algorithm.  With an empty cache, an empty mappings db, and a
static default table that does contain the requested pair, the spec's
algorithm resolves the pair from the static resource while
`mappedMeteringPlan`-style resolution returns absent — its resolve path
has no static-resource tier at all (the default tables are only seeded
into the db by `storeDefaultMappings`). -/
theorem mapping_resolver_skips_static_cex :
    (mappedPlanResolve (V := String) (D := String)
        (fun _ => none) (fun _ => none) (fun d => d)
        "object-storage" "basic").1 = none ∧
    (resolveSpec (V := String) (D := String)
        (fun _ => none)
        (fun k => if k = mappingId "object-storage" "basic"
          then some "basic-object-storage" else none)
        (fun _ => none) (fun d => d) (fun k => k)
        (mappingId "object-storage" "basic")).1
      = some "basic-object-storage" := by
  constructor
  · rfl
  · simp [resolveSpec]

/-- C4 (amended): the three plan resolvers (`metering`, `rating`,
`pricing`) execute exactly the spec's three-tier algorithm under their
per-key lock, with the canonical store id `['k', key].join('/')`; the
mapping resolver executes the same algorithm but with an *empty* static
tier — it checks only the memory cache and then the store, its static
defaults being seeded into the store at startup instead of consulted at
resolve time. -/
theorem resolver_tiers (V D : Type) (cache bundle : String → Option V)
    (db : String → Option D) (undbify : D → V)
    (key resourceType planName : String) :
    planResolve cache bundle db undbify key
      = resolveSpec cache bundle db undbify (fun k => "k" ++ "/" ++ k) key ∧
    mappedPlanResolve cache db undbify resourceType planName
      = resolveSpec cache (fun _ => none) db undbify (fun k => k)
          (mappingId resourceType planName) := by
  constructor
  · rfl
  · rfl

/-!
## Default-mapping seeding: claim C9
-/

/-- The read of a mapping succeeds exactly when the id is resolvable. -/
theorem readMapping_fst_isSome (st : MappingState) (rt pn : String) :
    (readMapping st rt pn).1.isSome = resolvable st (mappingId rt pn) := by
  unfold readMapping mappedPlanResolve resolvable
  cases hc : st.cache (mappingId rt pn) <;>
    cases hd : st.store (mappingId rt pn) <;> simp [hc, hd]

/-- A read never writes the store. -/
theorem readMapping_store (st : MappingState) (rt pn : String) :
    (readMapping st rt pn).2.store = st.store := by
  unfold readMapping mappedPlanResolve
  cases hc : st.cache (mappingId rt pn) <;>
    cases hd : st.store (mappingId rt pn) <;> simp [hc, hd]

/-- A read changes no id's resolvability: it caches only values read
from the store. -/
theorem readMapping_resolvable (st : MappingState) (rt pn id : String) :
    resolvable (readMapping st rt pn).2 id = resolvable st id := by
  unfold readMapping mappedPlanResolve resolvable stringMapPut
  cases hc : st.cache (mappingId rt pn) <;>
    cases hd : st.store (mappingId rt pn) <;> simp [hc, hd] <;>
      by_cases hid : id = mappingId rt pn <;> simp [hid, hc, hd]

/-- Creating a mapping preserves resolvability of every id. -/
theorem newMapping_resolvable_mono (st : MappingState) (rt pn pid id : String) :
    resolvable st id = true → resolvable (newMapping st rt pn pid) id = true := by
  unfold newMapping resolvable stringMapPut
  by_cases hid : id = mappingId rt pn <;> simp [hid]

/-- The per-resource-type seeding loop preserves resolvability. -/
theorem storeMappingPlans_mono (rt : String) :
    ∀ (plans : List (String × String)) (st : MappingState) (id : String),
      resolvable st id = true →
      resolvable (storeMappingPlans rt st plans).1 id = true := by
  intro plans
  induction plans with
  | nil => intro st id h; simpa [storeMappingPlans] using h
  | cons p rest ih =>
    intro st id h
    obtain ⟨pn, pid⟩ := p
    simp only [storeMappingPlans]
    cases hr : (readMapping st rt pn).1 with
    | some v =>
      simp only [hr]
      exact ih _ _ ((readMapping_resolvable st rt pn id).trans h)
    | none =>
      simp only [hr]
      exact ih _ _ (newMapping_resolvable_mono _ rt pn pid id
        ((readMapping_resolvable st rt pn id).trans h))

/-- Every id written by the per-resource-type seeding loop was
unresolvable when the loop started. -/
theorem storeMappingPlans_writes (rt : String) :
    ∀ (plans : List (String × String)) (st : MappingState),
      ∀ w ∈ (storeMappingPlans rt st plans).2, resolvable st w = false := by
  intro plans
  induction plans with
  | nil => intro st w hw; simp [storeMappingPlans] at hw
  | cons p rest ih =>
    intro st w hw
    obtain ⟨pn, pid⟩ := p
    simp only [storeMappingPlans] at hw
    cases hr : (readMapping st rt pn).1 with
    | some v =>
      simp only [hr] at hw
      exact (readMapping_resolvable st rt pn w).symm.trans (ih _ w hw)
    | none =>
      simp only [hr] at hw
      rcases List.mem_cons.mp hw with hweq | hwrest
      · subst hweq
        have hsome := readMapping_fst_isSome st rt pn
        rw [hr] at hsome
        simpa using hsome.symm
      · have hfalse := ih _ w hwrest
        by_contra hcon
        have htrue : resolvable st w = true := by
          revert hcon; cases resolvable st w <;> simp
        have h2 := newMapping_resolvable_mono _ rt pn pid w
          ((readMapping_resolvable st rt pn w).trans htrue)
        simp [hfalse] at h2

/-- When every pair of a plan list is already resolvable, the seeding
loop writes nothing and leaves the store untouched. -/
theorem storeMappingPlans_noop (rt : String) :
    ∀ (plans : List (String × String)) (st : MappingState),
      (∀ p ∈ plans, resolvable st (mappingId rt p.1) = true) →
      (storeMappingPlans rt st plans).2 = [] ∧
      (storeMappingPlans rt st plans).1.store = st.store := by
  intro plans
  induction plans with
  | nil => intro st _; simp [storeMappingPlans]
  | cons p rest ih =>
    intro st hres
    obtain ⟨pn, pid⟩ := p
    have hkey : resolvable st (mappingId rt pn) = true :=
      hres (pn, pid) (List.mem_cons_self _ _)
    have hsome := readMapping_fst_isSome st rt pn
    rw [hkey] at hsome
    simp only [storeMappingPlans]
    cases hr : (readMapping st rt pn).1 with
    | none => rw [hr] at hsome; simp at hsome
    | some v =>
      simp only [hr]
      have hrest := ih (readMapping st rt pn).2 (fun q hq =>
        (readMapping_resolvable st rt pn (mappingId rt q.1)).trans
          (hres q (List.mem_cons_of_mem _ hq)))
      exact ⟨hrest.1, hrest.2.trans (readMapping_store st rt pn)⟩

/-- The whole-table seeding pass preserves resolvability. -/
theorem storeMapping_mono :
    ∀ (table : List (String × List (String × String))) (st : MappingState)
      (id : String), resolvable st id = true →
      resolvable (storeMapping st table).1 id = true := by
  intro table
  induction table with
  | nil => intro st id h; simpa [storeMapping] using h
  | cons e rest ih =>
    intro st id h
    obtain ⟨rt, plans⟩ := e
    simp only [storeMapping]
    exact ih _ _ (storeMappingPlans_mono rt plans st id h)

/-- Every id written by the whole-table seeding pass was unresolvable in
the initial state. -/
theorem storeMapping_writes :
    ∀ (table : List (String × List (String × String))) (st : MappingState),
      ∀ w ∈ (storeMapping st table).2.1, resolvable st w = false := by
  intro table
  induction table with
  | nil => intro st w hw; simp [storeMapping] at hw
  | cons e rest ih =>
    intro st w hw
    obtain ⟨rt, plans⟩ := e
    simp only [storeMapping, List.mem_append] at hw
    rcases hw with hw1 | hw2
    · exact storeMappingPlans_writes rt plans st w hw1
    · have hfalse := ih _ w hw2
      by_contra hcon
      have htrue : resolvable st w = true := by
        revert hcon; cases resolvable st w <;> simp
      have h2 := storeMappingPlans_mono rt plans st w htrue
      simp [hfalse] at h2

/-- The whole-table completion callback always runs when the generator
finishes. -/
theorem storeMapping_cb :
    ∀ (table : List (String × List (String × String))) (st : MappingState),
      (storeMapping st table).2.2 = true := by
  intro table
  induction table with
  | nil => intro st; rfl
  | cons e rest ih =>
    intro st
    obtain ⟨rt, plans⟩ := e
    simp only [storeMapping]
    exact ih _

/-- When every pair of the table is already resolvable, the seeding pass
writes nothing and leaves the store untouched. -/
theorem storeMapping_noop :
    ∀ (table : List (String × List (String × String))) (st : MappingState),
      (∀ rt plans, (rt, plans) ∈ table →
        ∀ p ∈ plans, resolvable st (mappingId rt p.1) = true) →
      (storeMapping st table).2.1 = [] ∧
      (storeMapping st table).1.store = st.store := by
  intro table
  induction table with
  | nil => intro st _; simp [storeMapping]
  | cons e rest ih =>
    intro st hres
    obtain ⟨rt, plans⟩ := e
    have hplans := storeMappingPlans_noop rt plans st
      (fun p hp => hres rt plans (List.mem_cons_self _ _) p hp)
    have hrest := ih (storeMappingPlans rt st plans).1 (fun rt' plans' hmem p hp => by
      have := hres rt' plans' (List.mem_cons_of_mem _ hmem) p hp
      exact storeMappingPlans_mono rt plans st (mappingId rt' p.1) this)
    simp only [storeMapping]
    exact ⟨by rw [hplans.1, hrest.1]; rfl,
      hrest.2.trans hplans.2⟩

/-- C9: each kind's seeding pass of `storeDefaultMappings` creates a
mapping only for pairs whose read returned absent in that kind's initial
state (the written ids were not resolvable); the overall write list is
the concatenation over the three kinds; and the operation is idempotent:
when every default pair is already resolvable it performs no store
write — the three stores are untouched, only caches may warm up — and
still invokes its completion callback. -/
theorem storeDefaultMappings_seeds_only_missing
    (stM stR stP : MappingState)
    (tm tr tp : List (String × List (String × String))) :
    (∀ w ∈ (storeMapping stM tm).2.1, resolvable stM w = false) ∧
    (∀ w ∈ (storeMapping stR tr).2.1, resolvable stR w = false) ∧
    (∀ w ∈ (storeMapping stP tp).2.1, resolvable stP w = false) ∧
    (storeDefaultMappings stM stR stP tm tr tp).2.1
      = (storeMapping stM tm).2.1 ++ (storeMapping stR tr).2.1
          ++ (storeMapping stP tp).2.1 ∧
    ((∀ rt plans, (rt, plans) ∈ tm →
        ∀ p ∈ plans, resolvable stM (mappingId rt p.1) = true) →
     (∀ rt plans, (rt, plans) ∈ tr →
        ∀ p ∈ plans, resolvable stR (mappingId rt p.1) = true) →
     (∀ rt plans, (rt, plans) ∈ tp →
        ∀ p ∈ plans, resolvable stP (mappingId rt p.1) = true) →
      (storeDefaultMappings stM stR stP tm tr tp).2.1 = [] ∧
      (storeDefaultMappings stM stR stP tm tr tp).1.1.store = stM.store ∧
      (storeDefaultMappings stM stR stP tm tr tp).1.2.1.store = stR.store ∧
      (storeDefaultMappings stM stR stP tm tr tp).1.2.2.store = stP.store ∧
      (storeDefaultMappings stM stR stP tm tr tp).2.2 = true) := by
  refine ⟨storeMapping_writes tm stM, storeMapping_writes tr stR,
    storeMapping_writes tp stP, ?_, ?_⟩
  · simp [storeDefaultMappings]
  · intro hm hr hp
    have h1 := storeMapping_noop tm stM hm
    have h2 := storeMapping_noop tr stR hr
    have h3 := storeMapping_noop tp stP hp
    refine ⟨?_, ?_, ?_, ?_, ?_⟩ <;>
      simp [storeDefaultMappings, h1.1, h2.1, h3.1, h1.2, h2.2, h3.2,
        storeMapping_cb]

/-- Closed witness for `storeDefaultMappings_seeds_only_missing`: with
one default pair per kind, all three already in the stores, the run
writes nothing. -/
theorem storeDefaultMappings_seeds_only_missing_witness :
    (∀ rt plans,
        (rt, plans) ∈ [("object-storage", [("basic", "basic-object-storage")])] →
        ∀ p ∈ plans,
          resolvable
            (MappingState.mk (fun _ => none)
              (fun k => if k = mappingId "object-storage" "basic"
                then some "basic-object-storage" else none))
            (mappingId rt p.1) = true) ∧
    (storeDefaultMappings
        (MappingState.mk (fun _ => none)
          (fun k => if k = mappingId "object-storage" "basic"
            then some "basic-object-storage" else none))
        (MappingState.mk (fun _ => none)
          (fun k => if k = mappingId "object-storage" "basic"
            then some "basic-object-storage" else none))
        (MappingState.mk (fun _ => none)
          (fun k => if k = mappingId "object-storage" "basic"
            then some "basic-object-storage" else none))
        [("object-storage", [("basic", "basic-object-storage")])]
        [("object-storage", [("basic", "basic-object-storage")])]
        [("object-storage", [("basic", "basic-object-storage")])]).2.1
      = [] := by
  have hres : ∀ rt plans,
      (rt, plans) ∈ [("object-storage", [("basic", "basic-object-storage")])] →
      ∀ p ∈ plans,
        resolvable
          (MappingState.mk (fun _ => none)
            (fun k => if k = mappingId "object-storage" "basic"
              then some "basic-object-storage" else none))
          (mappingId rt p.1) = true := by
    intro rt plans hmem p hp
    simp only [List.mem_singleton] at hmem
    cases hmem
    simp only [List.mem_singleton] at hp
    cases hp
    simp [resolvable]
  exact ⟨hres,
    ((storeDefaultMappings_seeds_only_missing _ _ _ _ _ _).2.2.2.2
      hres hres hres).1⟩

end Abacus
